import Mathlib

/-!
# Verification of the ip-tool core

This development embeds the core of the ip-tool repository in Lean 4:

* the classifier and validator layer (internal/ip/classify.go,
  internal/ip/validate.go), together with a faithful model of the
  pieces of the Go standard library net package that this layer
  calls (net.ParseIP, the net.IP category predicates, net.IPNet
  containment and net.SplitHostPort);
* the query orchestrator (the Bubble Tea App in the tui package:
  NewApp, Init, Update, refresh, updateLoading, getValidIP).

Strings are embedded as List Char.  Go byte values are embedded as Nat
(every value stays below 256 by construction of the parser).  A Go
function returning a nil-able value is embedded as an Option.

The theorems at the end of the file settle the claims C1..C10 about
this code.
-/

/-- Character class used by the model of strings.TrimSpace.  Go trims
per unicode.IsSpace; the Latin-1 range of that predicate is
space, tab, newline, vertical tab, form feed, carriage return,
next line (U+0085) and no-break space (U+00A0).  Space characters
outside Latin-1 are not modelled. -/
def goIsSpace (c : Char) : Bool :=
  c == ' ' || c == '\t' || c == '\n' || c == '\x0b' || c == '\x0c' ||
    c == '\r' || c == '\u0085' || c == '\u00a0'

/-- Model of strings.TrimSpace: drop leading and trailing white space. -/
def trimSpace (l : List Char) : List Char :=
  ((l.dropWhile goIsSpace).reverse.dropWhile goIsSpace).reverse

/-- Cutset used by ExtractFromURL: the double quote (code 34) and the
single quote (code 39). -/
def isQuoteChar (c : Char) : Bool :=
  c == Char.ofNat 34 || c == Char.ofNat 39

/-- Model of strings.Trim with the quote cutset: drop leading and
trailing quote characters. -/
def trimQuotes (l : List Char) : List Char :=
  ((l.dropWhile isQuoteChar).reverse.dropWhile isQuoteChar).reverse

/-- Index of the first occurrence of a character, as in
strings.Index / bytealg.IndexByteString. -/
def idxOfChar : List Char → Char → Option Nat
  | [], _ => none
  | x :: t, c => if x = c then some 0 else (idxOfChar t c).map (· + 1)

/-- Index of the last occurrence of a character, as the helper last
in the Go net package (scan from the end). -/
def lastIdxOfChar (l : List Char) (c : Char) : Option Nat :=
  match idxOfChar l.reverse c with
  | some i => some (l.length - 1 - i)
  | none => none

/-- Decimal digit test, mirroring the character comparisons of the Go
parser. -/
def isDigitChar (c : Char) : Bool :=
  '0' ≤ c && c ≤ '9'

/-- Hexadecimal digit value, mirroring the three character ranges of
the Go parser. -/
def hexDigitVal (c : Char) : Option Nat :=
  if '0' ≤ c ∧ c ≤ '9' then some (c.toNat - 48)
  else if 'a' ≤ c ∧ c ≤ 'f' then some (c.toNat - 97 + 10)
  else if 'A' ≤ c ∧ c ≤ 'F' then some (c.toNat - 65 + 10)
  else none

/-- Model of the Go standard library IPv4 field parser
(netip parseIPv4Fields, used by net.ParseIP): four dot-separated
decimal fields, each 0..255, at least one digit per field, no field
with a leading zero.  The arguments track the current field value,
the digit count of the current field and the fields already
committed.  Returns the four field values. -/
def parseIPv4Fields : List Char → Nat → Nat → List Nat → Option (List Nat)
  | [], val, digLen, fields =>
      if digLen = 0 then none
      else if fields.length < 3 then none
      else some (fields ++ [val])
  | c :: rest, val, digLen, fields =>
      if isDigitChar c then
        if digLen = 1 ∧ val = 0 then none
        else
          let val2 := val * 10 + (c.toNat - 48)
          if val2 > 255 then none
          else parseIPv4Fields rest val2 (digLen + 1) fields
      else if c = '.' then
        if digLen = 0 then none
        else if rest = [] then none
        else if fields.length = 3 then none
        else parseIPv4Fields rest 0 0 (fields ++ [val])
      else none

/-- The 12-byte IPv4-in-IPv6 mapping used by the Go net package
(v4InV6Prefix): ten zero bytes followed by 0xff, 0xff. -/
def v4InV6Pre : List Nat :=
  [0, 0, 0, 0, 0, 0, 0, 0, 0, 0, 0xff, 0xff]

/-- Model of net.ParseIP on dotted-quad input: a successful parse
yields the 16-byte IPv4-in-IPv6 representation, as net.IPv4 does. -/
def parseIPv4 (s : List Char) : Option (List Nat) :=
  (parseIPv4Fields s 0 0 []).map (fun f => v4InV6Pre ++ f)

/-- Scan a run of hexadecimal digits accumulating one IPv6 group, as
the inner loop of the Go netip parseIPv6 does.  Returns the
accumulated value, the number of digits consumed and the remaining
characters; none when the accumulated value exceeds 0xFFFF. -/
def scanV6Group : List Char → Nat → Nat → Option (Nat × Nat × List Char)
  | [], acc, cnt => some (acc, cnt, [])
  | c :: rest, acc, cnt =>
    match hexDigitVal c with
    | some d =>
      let acc2 := acc * 16 + d
      if acc2 > 0xFFFF then none
      else scanV6Group rest acc2 (cnt + 1)
    | none => some (acc, cnt, c :: rest)

/-- Main loop of the Go netip parseIPv6: repeatedly scan a group, then
either finish, read an embedded dotted-quad tail, or consume one or
two colons (recording the position of the :: ellipsis).  The state
is the remaining input, the bytes produced so far and the optional
ellipsis position; the fuel argument only bounds the recursion and
is always large enough (every iteration consumes at least one
character). -/
def v6Loop : Nat → List Char → List Nat → Option Nat → Option (List Nat × Option Nat)
  | 0, _, _, _ => none
  | Nat.succ fuel, s, bytes, ell =>
    if 16 ≤ bytes.length then
      if s = [] then some (bytes, ell) else none
    else
      match scanV6Group s 0 0 with
      | none => none
      | some (acc, cnt, rest) =>
        if cnt = 0 then none
        else
          match rest with
          | '.' :: _ =>
            if ell = none ∧ bytes.length ≠ 12 then none
            else if bytes.length + 4 > 16 then none
            else
              match parseIPv4Fields s 0 0 [] with
              | none => none
              | some f => some (bytes ++ f, ell)
          | _ =>
            let bytes2 := bytes ++ [acc / 256, acc % 256]
            match rest with
            | [] => some (bytes2, ell)
            | ':' :: [] => none
            | ':' :: ':' :: r2 =>
              if ell ≠ none then none
              else if r2 = [] then some (bytes2, some bytes2.length)
              else v6Loop fuel r2 bytes2 (some bytes2.length)
            | ':' :: r2 => v6Loop fuel r2 bytes2 ell
            | _ => none

/-- Post-processing of the Go netip parseIPv6 loop: expand the ::
ellipsis with zero bytes (failing when there is nothing to expand or
no ellipsis while bytes are missing). -/
def postV6 : List Nat × Option Nat → Option (List Nat)
  | (bytes, ell) =>
    if bytes.length < 16 then
      match ell with
      | none => none
      | some e =>
        some (bytes.take e ++ List.replicate (16 - bytes.length) 0 ++ bytes.drop e)
    else
      match ell with
      | some _ => none
      | none => some bytes

/-- Model of the Go netip parseIPv6 used by net.ParseIP.  A zoned
address (percent sign) is rejected, because net.ParseIP rejects
every address with a non-empty zone and netip rejects an empty
zone.  A bare leading :: with nothing after it is the unspecified
address. -/
def parseIPv6 (s : List Char) : Option (List Nat) :=
  if s.contains ('%') then none
  else
    match s with
    | ':' :: ':' :: rest =>
      if rest = [] then some (List.replicate 16 0)
      else (v6Loop (rest.length + 1) rest [] (some 0)).bind postV6
    | _ => (v6Loop (s.length + 1) s [] none).bind postV6

/-- Dispatch scan of netip.ParseAddr: the first special character
decides the parser. -/
def findSpecial : List Char → Option Char
  | [] => none
  | c :: t => if c = '.' ∨ c = ':' ∨ c = '%' then some c else findSpecial t

/-- Model of net.ParseIP (the platform address parser used by the
repository).  Mirrors the netip.ParseAddr dispatch: a dot selects
the IPv4 parser, a colon the IPv6 parser, a percent sign (zone)
fails, no special character fails.  A successful parse is always a
16-byte value, dotted quads in the IPv4-in-IPv6 form. -/
def parseIP (s : List Char) : Option (List Nat) :=
  match findSpecial s with
  | some c => if c = '.' then parseIPv4 s else if c = ':' then parseIPv6 s else none
  | none => none

/-- Model of the Go net isZeros helper: every byte is zero. -/
def isZeros (l : List Nat) : Bool :=
  l.all (fun b => b == 0)

/-- Model of the net.IP To4 method: a 4-byte value is returned as is,
a 16-byte value with the IPv4-in-IPv6 preamble is shortened to its
last four bytes, anything else is nil. -/
def to4 (ip : List Nat) : Option (List Nat) :=
  if ip.length = 4 then some ip
  else if ip.length = 16 ∧ isZeros (ip.take 10) ∧ ip.getD 10 0 = 0xff ∧ ip.getD 11 0 = 0xff
    then some (ip.drop 12)
  else none

/-- Model of the net.IP Equal method: equal lengths compare bytewise,
a 4-byte and a 16-byte value compare through the IPv4-in-IPv6
preamble. -/
def ipEqual (ip x : List Nat) : Bool :=
  if ip.length = x.length then ip == x
  else if ip.length = 4 ∧ x.length = 16 then
    isZeros (x.take 10) && (x.getD 10 0 == 0xff) && (x.getD 11 0 == 0xff) &&
      (x.drop 12 == ip)
  else if ip.length = 16 ∧ x.length = 4 then
    isZeros (ip.take 10) && (ip.getD 10 0 == 0xff) && (ip.getD 11 0 == 0xff) &&
      (ip.drop 12 == x)
  else false

/-- The net.IPv4zero constant (0.0.0.0 in its 16-byte form). -/
def iPv4zero : List Nat := v4InV6Pre ++ [0, 0, 0, 0]

/-- The net.IPv6unspecified constant (::). -/
def iPv6unspecified : List Nat := List.replicate 16 0

/-- The net.IPv6loopback constant (::1). -/
def iPv6loopback : List Nat :=
  [0, 0, 0, 0, 0, 0, 0, 0, 0, 0, 0, 0, 0, 0, 0, 1]

/-- Model of the net.IP IsUnspecified method. -/
def isUnspecified (ip : List Nat) : Bool :=
  ipEqual ip iPv4zero || ipEqual ip iPv6unspecified

/-- Model of the net.IP IsLoopback method. -/
def isLoopback (ip : List Nat) : Bool :=
  match to4 ip with
  | some ip4 => ip4.getD 0 0 == 127
  | none => ipEqual ip iPv6loopback

/-- Model of the net.IP IsLinkLocalUnicast method. -/
def isLinkLocalUnicast (ip : List Nat) : Bool :=
  match to4 ip with
  | some ip4 => ip4.getD 0 0 == 169 && ip4.getD 1 0 == 254
  | none => ip.length == 16 && ip.getD 0 0 == 0xfe && Nat.land (ip.getD 1 0) 0xc0 == 0x80

/-- Model of the net.IP IsLinkLocalMulticast method. -/
def isLinkLocalMulticast (ip : List Nat) : Bool :=
  match to4 ip with
  | some ip4 => ip4.getD 0 0 == 224 && ip4.getD 1 0 == 0 && ip4.getD 2 0 == 0
  | none => ip.length == 16 && ip.getD 0 0 == 0xff && Nat.land (ip.getD 1 0) 0x0f == 0x02

/-- Model of the net.IP IsMulticast method. -/
def isMulticast (ip : List Nat) : Bool :=
  match to4 ip with
  | some ip4 => Nat.land (ip4.getD 0 0) 0xf0 == 0xe0
  | none => ip.length == 16 && ip.getD 0 0 == 0xff

/-- Model of the net.IP IsPrivate method (RFC 1918 and IPv6 ULA). -/
def isPrivate (ip : List Nat) : Bool :=
  match to4 ip with
  | some ip4 =>
      ip4.getD 0 0 == 10 ||
        (ip4.getD 0 0 == 172 && Nat.land (ip4.getD 1 0) 0xf0 == 16) ||
        (ip4.getD 0 0 == 192 && ip4.getD 1 0 == 168)
  | none => ip.length == 16 && Nat.land (ip.getD 0 0) 0xfe == 0xfc

/-- Bytewise masked comparison used by the net.IPNet Contains method. -/
def maskedEq : List Nat → List Nat → List Nat → Bool
  | [], [], [] => true
  | n :: ns, m :: ms, i :: is => (Nat.land n m == Nat.land i m) && maskedEq ns ms is
  | _, _, _ => false

/-- Model of the net.IPNet Contains method for a 4-byte network: the
candidate is first shortened with To4, then compared under the
mask; a length mismatch is false. -/
def cidrContains (netw mask ip : List Nat) : Bool :=
  let ip4 := match to4 ip with
             | some x => x
             | none => ip
  if ip4.length = netw.length then maskedEq netw mask ip4 else false

/-- The reservedBlocks list built by the init function of the ip
package: special IPv4 ranges folded into Private by Classify.  Each
entry is the network base with its mask, exactly the result of
net.ParseCIDR on the listed strings. -/
def reservedBlocks : List (List Nat × List Nat) :=
  [ ([100, 64, 0, 0],        [255, 192, 0, 0]),      -- 100.64.0.0/10 shared CGNAT
    ([192, 0, 0, 0],         [255, 255, 255, 0]),    -- 192.0.0.0/24 IETF
    ([192, 0, 2, 0],         [255, 255, 255, 0]),    -- 192.0.2.0/24 TEST-NET-1
    ([198, 18, 0, 0],        [255, 254, 0, 0]),      -- 198.18.0.0/15 benchmarking
    ([198, 51, 100, 0],      [255, 255, 255, 0]),    -- 198.51.100.0/24 TEST-NET-2
    ([203, 0, 113, 0],       [255, 255, 255, 0]),    -- 203.0.113.0/24 TEST-NET-3
    ([240, 0, 0, 0],         [240, 0, 0, 0]),        -- 240.0.0.0/4 future use
    ([255, 255, 255, 255],   [255, 255, 255, 255]) ] -- 255.255.255.255/32 broadcast

/-- The IP type constants of internal/ip/classify.go. -/
inductive IPType where
  | TypePublic
  | TypePrivate
  | TypeLoopback
  | TypeLinkLocal
  | TypeMulticast
  | TypeUnspecified
  | TypeInvalid
deriving DecidableEq

/-- The placeholder string Not Detected. -/
def notDetected : List Char := ("Not Detected").data

/-- The placeholder string Not Applicable. -/
def notApplicable : List Char := ("Not Applicable").data

/-- Embedding of Classify from internal/ip/classify.go: trim, reject
placeholders, parse, then test the category predicates in the fixed
switch order; an address matching none of them is checked against
the reserved blocks and otherwise falls through to the final return
of the function body, which is TypeInvalid in the source (there is
no return of TypePublic in this revision). -/
def Classify (ipStr0 : List Char) : IPType :=
  let ipStr := trimSpace ipStr0
  if ipStr = [] ∨ ipStr = notDetected ∨ ipStr = notApplicable then IPType.TypeInvalid
  else
    match parseIP ipStr with
    | none => IPType.TypeInvalid
    | some ip =>
      if isUnspecified ip then IPType.TypeUnspecified
      else if isLoopback ip then IPType.TypeLoopback
      else if isLinkLocalUnicast ip || isLinkLocalMulticast ip then IPType.TypeLinkLocal
      else if isMulticast ip then IPType.TypeMulticast
      else if isPrivate ip then IPType.TypePrivate
      else if reservedBlocks.any (fun b => cidrContains b.1 b.2 ip) then IPType.TypePrivate
      else IPType.TypeInvalid

/-- Embedding of IsValid from internal/ip/classify.go. -/
def IsValid (ipStr : List Char) : Bool :=
  (parseIP (trimSpace ipStr)).isSome

/-- Embedding of IsIPv4 from internal/ip/classify.go. -/
def IsIPv4 (ipStr : List Char) : Bool :=
  match parseIP (trimSpace ipStr) with
  | some ip => (to4 ip).isSome
  | none => false

/-- Embedding of IsIPv6 from internal/ip/classify.go. -/
def IsIPv6 (ipStr : List Char) : Bool :=
  match parseIP (trimSpace ipStr) with
  | some ip => (to4 ip).isNone
  | none => false

/-- Model of net.SplitHostPort: the port starts after the last colon;
a leading bracket selects the bracketed form whose closing bracket
must sit just before that colon; otherwise the host (everything
before the last colon) may not contain another colon; stray
brackets fail.  Returns host and port on success. -/
def splitHostPort (hp : List Char) : Option (List Char × List Char) :=
  match lastIdxOfChar hp ':' with
  | none => none
  | some i =>
    if hp.getD 0 (Char.ofNat 0) = '[' then
      match idxOfChar hp ']' with
      | none => none
      | some e =>
        if e + 1 = hp.length then none
        else if e + 1 = i then
          if ('[') ∈ hp.drop 1 then none
          else if (']') ∈ hp.drop (e + 1) then none
          else some ((hp.take e).drop 1, hp.drop (i + 1))
        else none
    else
      let host := hp.take i
      if (':') ∈ host then none
      else if ('[') ∈ hp then none
      else if (']') ∈ hp then none
      else some (host, hp.drop (i + 1))

/-- Drop string in front, as strings.TrimPrefix with a one character
pattern: remove one leading occurrence of the character. -/
def trimPre (l : List Char) (c : Char) : List Char :=
  match l with
  | [] => []
  | x :: t => if x = c then t else l

/-- Drop string at the end, as strings.TrimSuffix with a one character
pattern: remove one trailing occurrence of the character. -/
def trimSuf (l : List Char) (c : Char) : List Char :=
  if l.getLast? = some c then l.dropLast else l

/-- Bool test of where the scheme separator :// starts. -/
def startsWithSep (l : List Char) : Bool :=
  match l with
  | a :: b :: c :: _ => a == ':' && b == '/' && c == '/'
  | _ => false

/-- The remainder after the first occurrence of the scheme separator
:// if there is one, mirroring strings.Index plus reslicing. -/
def afterSchemeSep : List Char → Option (List Char)
  | [] => none
  | c :: t => if startsWithSep (c :: t) then some (t.drop 2) else afterSchemeSep t

/-- Embedding of ExtractFromURL from internal/ip/validate.go: trim
white space and quotes, drop a scheme, drop everything from the
first slash, split off a port if net.SplitHostPort succeeds, else
strip leftover square brackets. -/
def ExtractFromURL (input0 : List Char) : List Char :=
  let i1 := trimSpace input0
  let i2 := trimQuotes i1
  let i3 := match afterSchemeSep i2 with
            | some r => r
            | none => i2
  let i4 := match idxOfChar i3 '/' with
            | some idx => i3.take idx
            | none => i3
  match splitHostPort i4 with
  | some hostPort => hostPort.1
  | none => trimSuf (trimPre i4 '[') ']'

/-- Embedding of isValidDomainChar from internal/ip/validate.go. -/
def isValidDomainChar (ch : Char) : Bool :=
  (decide ('a' ≤ ch ∧ ch ≤ 'z')) || (decide ('A' ≤ ch ∧ ch ≤ 'Z')) ||
    (decide ('0' ≤ ch ∧ ch ≤ '9')) || ch == '.' || ch == '-'

/-- The literal localhost. -/
def localhostStr : List Char := ("localhost").data

/-- Embedding of IsValidTarget from internal/ip/validate.go (the
revision imported by cmd/root.go): accept any parsable IP address,
otherwise require domain length at most 253, no space, at least one
dot unless the target is localhost, and only domain characters.
The Go length check counts bytes while this model counts runes; the
two can only differ on inputs with multi-byte runes, which the
character whitelist rejects in both, so the results agree on every
input. -/
def IsValidTarget (target0 : List Char) : Bool :=
  let target := trimSpace target0
  if (parseIP target).isSome then true
  else if target.length > 253 then false
  else if (' ') ∈ target then false
  else if ('.') ∉ target ∧ target ≠ localhostStr then false
  else target.all isValidDomainChar

/-- The GeoInfo record of the network package (JSON response of the
geolocation API), in field order of the Go struct. -/
structure GeoInfo where
  status : List Char
  message : List Char
  country : List Char
  regionName : List Char
  city : List Char
  isp : List Char
  mobile : Bool
  proxy : Bool
  hosting : Bool
deriving DecidableEq

/-- A failed GeoInfo as built inline by the orchestrator: Status fail,
the given message, every other field the Go zero value. -/
def geoFail (msg : List Char) : GeoInfo :=
  { status := ("fail").data, message := msg, country := [], regionName := [],
    city := [], isp := [], mobile := false, proxy := false, hosting := false }

/-- The App state of the tui package.  The spinner field of the Go
struct is pure animation state and is not modelled; every other
field is carried over.  An empty ipv4/ipv6 string is a pending
slot; geoInfo nil is modelled as none. -/
structure App where
  target : List Char
  ipv4 : List Char
  ipv6 : List Char
  geoInfo : Option GeoInfo
  message : List Char
  loading : Bool
  showDetail : Bool
  fetchingDetail : Bool
deriving DecidableEq

/-- The messages consumed by the Update function of the App: the five
handled key presses, the clear timer, the spinner tick and the four
completion messages delivered by the Gateway commands. -/
inductive Msg where
  | keyQ
  | keyR
  | keyD
  | key4
  | key6
  | clearMsg
  | spinTick
  | ipv4Msg (v : List Char)
  | ipv6Msg (v : List Char)
  | geoMsg (g : GeoInfo)
  | geoErrMsg (e : List Char)
deriving DecidableEq

/-- The commands (and synchronous side effects) emitted by the App:
quitting, the spinner tick, the two address lookups, the
geolocation fetch, the clear timer of an ephemeral message, and the
clipboard write. -/
inductive Cmd where
  | quit
  | spinnerTick
  | resolveIPv4 (target : List Char)
  | resolveIPv6 (target : List Char)
  | fetchGeo (ip : List Char)
  | tickClear
  | clipboardWrite (v : List Char)
deriving DecidableEq

/-- Embedding of NewApp: loading starts true, both slots empty
(pending), no geo info, no message. -/
def NewApp (target : List Char) (showDetail : Bool) : App :=
  { target := target, ipv4 := [], ipv6 := [], geoInfo := none, message := [],
    loading := true, showDetail := showDetail, fetchingDetail := false }

/-- Embedding of the updateLoading method: without detail mode the app
is loading until both slots are non-empty; with detail mode also
until geoInfo is set. -/
def App.updateLoading (a : App) : App :=
  let ipReady := !a.ipv4.isEmpty && !a.ipv6.isEmpty
  if a.showDetail then { a with loading := !(ipReady && a.geoInfo.isSome) }
  else { a with loading := !ipReady }

/-- Embedding of the getValidIP method: the first of the two slots
whose value is non-empty and neither placeholder, else empty. -/
def App.getValidIP (a : App) : List Char :=
  if a.ipv4 ≠ [] ∧ a.ipv4 ≠ notDetected ∧ a.ipv4 ≠ notApplicable then a.ipv4
  else if a.ipv6 ≠ [] ∧ a.ipv6 ≠ notDetected ∧ a.ipv6 ≠ notApplicable then a.ipv6
  else []

/-- Embedding of the Init method: an IP literal target fills the
matching slot at once, marks the other Not Applicable, issues no
address lookup and (in detail mode) starts the geolocation fetch
immediately; any other target issues both lookups.  The spinner
tick command of the source is kept in the command list. -/
def App.Init (a : App) : App × List Cmd :=
  match parseIP a.target with
  | some ip =>
    let a1 := if (to4 ip).isSome
              then { a with ipv4 := a.target, ipv6 := notApplicable }
              else { a with ipv6 := a.target, ipv4 := notApplicable }
    let cmds := if a1.showDetail then [Cmd.spinnerTick, Cmd.fetchGeo a1.target]
                else [Cmd.spinnerTick]
    (a1.updateLoading, cmds)
  | none =>
    (a, [Cmd.spinnerTick, Cmd.resolveIPv4 a.target, Cmd.resolveIPv6 a.target])

/-- The ephemeral refresh message. -/
def refreshingStr : List Char := ("Refreshing...").data

/-- The copy confirmation messages. -/
def copiedIPv4 : List Char := ("Copied IPv4!").data

/-- The copy confirmation message for the IPv6 slot. -/
def copiedIPv6 : List Char := ("Copied IPv6!").data

/-- Embedding of the refresh method: reset both slots, the geo info,
the guard and the loading flag, set the ephemeral message and its
clear timer, then re-run the same branch as Init (without the
spinner tick). -/
def App.refresh (a : App) : App × List Cmd :=
  let a1 := { a with ipv4 := [], ipv6 := [], geoInfo := none, loading := true,
                     fetchingDetail := false, message := refreshingStr }
  match parseIP a1.target with
  | some ip =>
    let a2 := if (to4 ip).isSome
              then { a1 with ipv4 := a1.target, ipv6 := notApplicable }
              else { a1 with ipv6 := a1.target, ipv4 := notApplicable }
    if a2.showDetail then (a2, [Cmd.tickClear, Cmd.fetchGeo a2.target])
    else (a2.updateLoading, [Cmd.tickClear])
  | none =>
    (a1, [Cmd.tickClear, Cmd.resolveIPv4 a1.target, Cmd.resolveIPv6 a1.target])

/-- Embedding of the Update method of the App, one case per message,
in source order.  The pair holds the next state and the emitted
commands (tea.Batch and the synchronous clipboard write both appear
as list elements, nil as the empty list). -/
def App.Update (a : App) (m : Msg) : App × List Cmd :=
  match m with
  | Msg.keyQ => (a, [Cmd.quit])
  | Msg.keyR => a.refresh
  | Msg.keyD =>
    if a.showDetail then (a, [])
    else
      let a1 := { a with showDetail := true }
      let targetIP := a1.getValidIP
      if targetIP ≠ [] then ({ a1 with loading := true }, [Cmd.fetchGeo targetIP])
      else ({ a1 with geoInfo := some (geoFail (("No valid IP").data)) }, [])
  | Msg.key4 =>
    if a.ipv4 ≠ [] ∧ a.ipv4 ≠ notDetected ∧ a.ipv4 ≠ notApplicable then
      ({ a with message := copiedIPv4 }, [Cmd.clipboardWrite a.ipv4, Cmd.tickClear])
    else (a, [])
  | Msg.key6 =>
    if a.ipv6 ≠ [] ∧ a.ipv6 ≠ notDetected ∧ a.ipv6 ≠ notApplicable then
      ({ a with message := copiedIPv6 }, [Cmd.clipboardWrite a.ipv6, Cmd.tickClear])
    else (a, [])
  | Msg.clearMsg => ({ a with message := [] }, [])
  | Msg.spinTick => (a, [Cmd.spinnerTick])
  | Msg.ipv4Msg v =>
    let a1 := App.updateLoading { a with ipv4 := v }
    if a1.showDetail = true ∧ a1.fetchingDetail = false ∧ a1.geoInfo = none ∧
        a1.ipv4 ≠ notDetected then
      ({ a1 with fetchingDetail := true }, [Cmd.fetchGeo a1.ipv4])
    else (a1, [])
  | Msg.ipv6Msg v =>
    let a1 := App.updateLoading { a with ipv6 := v }
    if a1.showDetail = true ∧ a1.fetchingDetail = false ∧ a1.geoInfo = none ∧
        a1.ipv6 ≠ notDetected then
      ({ a1 with fetchingDetail := true }, [Cmd.fetchGeo a1.ipv6])
    else (a1, [])
  | Msg.geoMsg g =>
    (App.updateLoading { a with geoInfo := some g, fetchingDetail := false }, [])
  | Msg.geoErrMsg e =>
    (App.updateLoading { a with geoInfo := some (geoFail e), fetchingDetail := false }, [])

/-- A slot is settled when the lookup concluded, that is when the slot
string is non-empty (empty means pending). -/
def slotSettled (v : List Char) : Bool := !v.isEmpty

/-- The loading formula of the specification: loading is the negation
of (both slots settled and (detail not requested or detail
settled)), where the detail is settled when geoInfo is present. -/
def loadingFormula (a : App) : Bool :=
  !(slotSettled a.ipv4 && slotSettled a.ipv6 && (!a.showDetail || a.geoInfo.isSome))

/-- Completion messages a pending command can deliver: an address
lookup delivers an arbitrary string, a geolocation fetch delivers a
record or an error, timers deliver their ticks. -/
inductive Delivers : Cmd → Msg → Prop where
  | resolve4 (t v : List Char) : Delivers (Cmd.resolveIPv4 t) (Msg.ipv4Msg v)
  | resolve6 (t v : List Char) : Delivers (Cmd.resolveIPv6 t) (Msg.ipv6Msg v)
  | geoOk (ip : List Char) (g : GeoInfo) : Delivers (Cmd.fetchGeo ip) (Msg.geoMsg g)
  | geoErr (ip e : List Char) : Delivers (Cmd.fetchGeo ip) (Msg.geoErrMsg e)
  | clear : Delivers Cmd.tickClear Msg.clearMsg
  | spin : Delivers Cmd.spinnerTick Msg.spinTick

/-- Key messages originate from the user and can arrive at any time. -/
def keyMsg (m : Msg) : Prop :=
  m = Msg.keyQ ∨ m = Msg.keyR ∨ m = Msg.keyD ∨ m = Msg.key4 ∨ m = Msg.key6

/-- A system state: the App state together with the multiset of
commands whose completions are still outstanding. -/
structure Sys where
  app : App
  pending : List Cmd
deriving DecidableEq

/-- Reachable system states: a session starts with NewApp plus Init,
then evolves by key presses (any time) and by delivery of the
completion of one outstanding command.  This is the event loop of
the Bubble Tea runtime: events are consumed one at a time and the
emitted commands join the outstanding set. -/
inductive Reach : Sys → Prop where
  | init (t : List Char) (d : Bool) :
      Reach ⟨(App.Init (NewApp t d)).1, (App.Init (NewApp t d)).2⟩
  | key (s : Sys) (m : Msg) (hr : Reach s) (hk : keyMsg m) :
      Reach ⟨(App.Update s.app m).1, s.pending ++ (App.Update s.app m).2⟩
  | deliver (s : Sys) (c : Cmd) (m : Msg) (hr : Reach s) (hc : c ∈ s.pending)
      (hd : Delivers c m) :
      Reach ⟨(App.Update s.app m).1, s.pending.erase c ++ (App.Update s.app m).2⟩

/-- Auxiliary invariant: while detail mode is off there is no geo
record and no outstanding geolocation fetch. -/
def SysInv (s : Sys) : Prop :=
  s.app.loading = loadingFormula s.app ∧
    (s.app.showDetail = false →
      s.app.geoInfo = none ∧ ∀ v, Cmd.fetchGeo v ∉ s.pending)

/-- Geo completion messages can only be consumed while detail mode is
on (they are delivered by a fetch command, and such a command is
only outstanding in detail mode). -/
def geoOkMsg (a : App) : Msg → Prop
  | Msg.geoMsg _ => a.showDetail = true
  | Msg.geoErrMsg _ => a.showDetail = true
  | _ => True

/-- Projection of the geolocation fetch commands out of an emitted
command list. -/
def fetchTargets (cs : List Cmd) : List (List Char) :=
  cs.filterMap (fun c => match c with
                         | Cmd.fetchGeo ip => some ip
                         | _ => none)

/-- The slot vocabulary of the specification, together with the view
of the string representation used by the App: an empty string is a
pending slot, the two placeholders are the unavailable outcomes,
anything else is a resolved value. -/
inductive SlotView where
  | pending
  | resolved (v : List Char)
  | unavailableNotDetected
  | unavailableNotApplicable
deriving DecidableEq

/-- View of a slot string in the slot vocabulary. -/
def slotView (v : List Char) : SlotView :=
  if v = [] then SlotView.pending
  else if v = notDetected then SlotView.unavailableNotDetected
  else if v = notApplicable then SlotView.unavailableNotApplicable
  else SlotView.resolved v

/-- Character set named by claim C8: letters, digits, dot, hyphen and
colon (the colon is the point where the claim and the code
diverge). -/
def specTargetChar (c : Char) : Bool :=
  (decide ('a' ≤ c ∧ c ≤ 'z')) || (decide ('A' ≤ c ∧ c ≤ 'Z')) ||
    (decide ('0' ≤ c ∧ c ≤ '9')) || c == '.' || c == '-' || c == ':'

/-- Acceptability predicate written from the wording of claim C8, for
comparison against the code: the text parses as an IP address, or
it is at most 253 characters long, has no embedded white space,
contains a dot or equals localhost, and every character is a
letter, digit, dot, hyphen or colon. -/
def isAcceptableTargetSpec (t : List Char) : Bool :=
  (parseIP (trimSpace t)).isSome ||
    (decide ((trimSpace t).length ≤ 253) && !((trimSpace t).any goIsSpace) &&
      ((trimSpace t).contains ('.') || trimSpace t == localhostStr) &&
      (trimSpace t).all specTargetChar)

example : parseIPv4 ("8.8.8.8").data =
    some [0, 0, 0, 0, 0, 0, 0, 0, 0, 0, 0xff, 0xff, 8, 8, 8, 8] := by decide

example : parseIPv4 ("256.0.0.1").data = none := by decide

example : parseIPv4 ("1.2.3").data = none := by decide

example : parseIPv4 ("01.2.3.4").data = none := by decide

example : parseIPv4 ("1.2.3.4.5").data = none := by decide

example : parseIPv4 ("1.2.3.").data = none := by decide

example : parseIP ("::1").data =
    some [0, 0, 0, 0, 0, 0, 0, 0, 0, 0, 0, 0, 0, 0, 0, 1] := by decide

example : parseIP ("::").data = some (List.replicate 16 0) := by decide

example : parseIP ("fe80::1").data =
    some [0xfe, 0x80, 0, 0, 0, 0, 0, 0, 0, 0, 0, 0, 0, 0, 0, 1] := by decide

example : parseIP ("::ffff:8.8.8.8").data =
    some [0, 0, 0, 0, 0, 0, 0, 0, 0, 0, 0xff, 0xff, 8, 8, 8, 8] := by decide

example : parseIP ("2001:4860:4860::8888").data =
    some [0x20, 0x01, 0x48, 0x60, 0x48, 0x60, 0, 0, 0, 0, 0, 0, 0, 0, 0x88, 0x88] := by
  decide

example : parseIP ("1:2:3:4:5:6:7:8:9").data = none := by decide

example : parseIP ("1::2::3").data = none := by decide

example : parseIP ("fe80::1%eth0").data = none := by decide

example : parseIP ("example.com").data = none := by decide

example : parseIP ("localhost").data = none := by decide

example : parseIP ("").data = none := by decide

example : Classify (("0.0.0.0").data) = IPType.TypeUnspecified := by decide

example : Classify (("::").data) = IPType.TypeUnspecified := by decide

example : Classify (("127.0.0.1").data) = IPType.TypeLoopback := by decide

example : Classify (("::1").data) = IPType.TypeLoopback := by decide

example : Classify (("169.254.1.1").data) = IPType.TypeLinkLocal := by decide

example : Classify (("fe80::1").data) = IPType.TypeLinkLocal := by decide

example : Classify (("224.0.0.1").data) = IPType.TypeLinkLocal := by decide

example : Classify (("239.1.2.3").data) = IPType.TypeMulticast := by decide

example : Classify (("10.1.2.3").data) = IPType.TypePrivate := by decide

example : Classify (("172.16.0.1").data) = IPType.TypePrivate := by decide

example : Classify (("192.168.1.1").data) = IPType.TypePrivate := by decide

example : Classify (("100.64.0.1").data) = IPType.TypePrivate := by decide

example : Classify (("198.18.0.1").data) = IPType.TypePrivate := by decide

example : Classify (("not-an-ip").data) = IPType.TypeInvalid := by decide

example : Classify (("Not Detected").data) = IPType.TypeInvalid := by decide

example : Classify (("8.8.8.8").data) = IPType.TypeInvalid := by decide

example : splitHostPort ("127.0.0.1:8080").data =
    some (("127.0.0.1").data, ("8080").data) := by decide

example : splitHostPort ("[::1]:8080").data =
    some (("::1").data, ("8080").data) := by decide

example : splitHostPort ("::1").data = none := by decide

example : splitHostPort ("host").data = none := by decide

example : splitHostPort ("[a]").data = none := by decide

example : ExtractFromURL ("https://github.com/user/repo").data = ("github.com").data := by
  decide

example : ExtractFromURL ("http://192.168.1.1:8080/path").data = ("192.168.1.1").data := by
  decide

example : ExtractFromURL ("http://[::1]:8080/path").data = ("::1").data := by decide

example : ExtractFromURL ("http://[::1]/path").data = ("::1").data := by decide

example : ExtractFromURL ("google.com").data = ("google.com").data := by decide

example : IsValidTarget ("8.8.8.8").data = true := by decide

example : IsValidTarget ("google.com").data = true := by decide

example : IsValidTarget ("localhost").data = true := by decide

example : IsValidTarget ("has space").data = false := by decide

example : IsValidTarget ("google").data = false := by decide

example : IsValidTarget ("::1").data = true := by decide

example : IsValidTarget ("a.b:80").data = false := by decide

example :
    (App.Init (NewApp (("8.8.8.8").data) false)).1.ipv4 = ("8.8.8.8").data := by decide

example :
    (App.Init (NewApp (("8.8.8.8").data) false)).1.loading = false := by decide

example :
    (App.Init (NewApp (("example.com").data) true)).2 =
      [Cmd.spinnerTick, Cmd.resolveIPv4 (("example.com").data),
        Cmd.resolveIPv6 (("example.com").data)] := by decide

theorem updateLoading_loading (a : App) :
    (App.updateLoading a).loading = loadingFormula (App.updateLoading a) := by
  cases h : a.showDetail <;>
    simp [App.updateLoading, loadingFormula, slotSettled, h, Bool.and_assoc]

theorem updateLoading_target (a : App) : (App.updateLoading a).target = a.target := by
  cases h : a.showDetail <;> simp [App.updateLoading, h]

theorem updateLoading_ipv4 (a : App) : (App.updateLoading a).ipv4 = a.ipv4 := by
  cases h : a.showDetail <;> simp [App.updateLoading, h]

theorem updateLoading_ipv6 (a : App) : (App.updateLoading a).ipv6 = a.ipv6 := by
  cases h : a.showDetail <;> simp [App.updateLoading, h]

theorem updateLoading_geoInfo (a : App) : (App.updateLoading a).geoInfo = a.geoInfo := by
  cases h : a.showDetail <;> simp [App.updateLoading, h]

theorem updateLoading_showDetail (a : App) :
    (App.updateLoading a).showDetail = a.showDetail := by
  cases h : a.showDetail <;> simp [App.updateLoading, h]

theorem updateLoading_fetchingDetail (a : App) :
    (App.updateLoading a).fetchingDetail = a.fetchingDetail := by
  cases h : a.showDetail <;> simp [App.updateLoading, h]

theorem updateLoading_message (a : App) :
    (App.updateLoading a).message = a.message := by
  cases h : a.showDetail <;> simp [App.updateLoading, h]

theorem parseIP_ne_nil {t : List Char} {ip : List Nat} (h : parseIP t = some ip) :
    t ≠ [] := by
  intro h0
  subst h0
  simp [parseIP, findSpecial] at h

theorem update_showDetail_mono (a : App) (m : Msg) (h : a.showDetail = true) :
    (App.Update a m).1.showDetail = true := by
  cases m <;>
    (simp only [App.Update, App.refresh]
     repeat' split) <;>
    simp_all [updateLoading_showDetail]

theorem update_J (a : App) (m : Msg) (hJ : a.showDetail = false → a.geoInfo = none)
    (hGeo : geoOkMsg a m) :
    (App.Update a m).1.showDetail = false → (App.Update a m).1.geoInfo = none := by
  cases m <;>
    (simp only [App.Update, App.refresh]
     repeat' split) <;>
    simp_all [updateLoading_showDetail, updateLoading_geoInfo, geoOkMsg]

theorem update_cmds_fetchGeo (a : App) (m : Msg) (v : List Char)
    (h : Cmd.fetchGeo v ∈ (App.Update a m).2) :
    (App.Update a m).1.showDetail = true := by
  cases m <;>
    (simp only [App.Update, App.refresh] at h ⊢
     repeat' split at h) <;>
    simp_all [updateLoading_showDetail, updateLoading_fetchingDetail,
      updateLoading_geoInfo, updateLoading_ipv4, updateLoading_ipv6,
      updateLoading_target, updateLoading_message]

theorem slotSettled_notApplicable : slotSettled notApplicable = true := by decide

theorem slotSettled_nil : slotSettled [] = false := rfl

theorem slotSettled_of_ne_nil {v : List Char} (h : v ≠ []) : slotSettled v = true := by
  simp [slotSettled, List.isEmpty_iff, h]

theorem update_loading_inv (a : App) (m : Msg)
    (hJ : a.showDetail = false → a.geoInfo = none)
    (hL : a.loading = loadingFormula a)
    (hGeo : geoOkMsg a m) :
    (App.Update a m).1.loading = loadingFormula (App.Update a m).1 := by
  cases m <;>
    (simp only [App.Update, App.refresh]
     repeat' split) <;>
    simp_all [loadingFormula, slotSettled_notApplicable, updateLoading_loading,
      updateLoading_showDetail, updateLoading_fetchingDetail, updateLoading_geoInfo,
      updateLoading_ipv4, updateLoading_ipv6, updateLoading_target,
      updateLoading_message, geoOkMsg, slotSettled]

theorem init_inv (t : List Char) (d : Bool) :
    SysInv ⟨(App.Init (NewApp t d)).1, (App.Init (NewApp t d)).2⟩ := by
  unfold SysInv
  simp only [App.Init, NewApp]
  repeat' split <;>
    simp_all [loadingFormula, slotSettled_notApplicable, updateLoading_loading,
      updateLoading_showDetail, updateLoading_geoInfo, updateLoading_ipv4,
      updateLoading_ipv6, slotSettled]

theorem geoOkMsg_of_key {a : App} {m : Msg} (hk : keyMsg m) : geoOkMsg a m := by
  rcases hk with h | h | h | h | h <;> subst h <;> trivial

theorem showDetail_true_of_not_false {b : Bool} (h : ¬b = false) : b = true := by
  cases b
  · exact absurd rfl h
  · rfl

theorem sysInv_of_reach (s : Sys) (h : Reach s) : SysInv s := by
  induction h with
  | init t d => exact init_inv t d
  | key s m hr hk ih =>
    refine ⟨update_loading_inv s.app m (fun h0 => (ih.2 h0).1) ih.1 (geoOkMsg_of_key hk),
      fun h0 => ⟨update_J s.app m (fun h1 => (ih.2 h1).1) (geoOkMsg_of_key hk) h0, ?_⟩⟩
    intro v hv
    rcases List.mem_append.mp hv with h1 | h2
    · have hsd : s.app.showDetail = false := by
        by_contra hx
        have := update_showDetail_mono s.app m (showDetail_true_of_not_false hx)
        rw [h0] at this
        exact absurd this (by simp)
      exact (ih.2 hsd).2 v h1
    · have := update_cmds_fetchGeo s.app m v h2
      rw [h0] at this
      exact absurd this (by simp)
  | deliver s c m hr hc hd ih =>
    have hgeo : geoOkMsg s.app m := by
      cases hd with
      | geoOk ip g =>
        show s.app.showDetail = true
        by_contra hx
        have hsd : s.app.showDetail = false := by
          cases hb : s.app.showDetail
          · rfl
          · exact absurd hb hx
        exact (ih.2 hsd).2 ip hc
      | geoErr ip e =>
        show s.app.showDetail = true
        by_contra hx
        have hsd : s.app.showDetail = false := by
          cases hb : s.app.showDetail
          · rfl
          · exact absurd hb hx
        exact (ih.2 hsd).2 ip hc
      | resolve4 t v => trivial
      | resolve6 t v => trivial
      | clear => trivial
      | spin => trivial
    refine ⟨update_loading_inv s.app m (fun h0 => (ih.2 h0).1) ih.1 hgeo,
      fun h0 => ⟨update_J s.app m (fun h1 => (ih.2 h1).1) hgeo h0, ?_⟩⟩
    intro v hv
    rcases List.mem_append.mp hv with h1 | h2
    · have hsd : s.app.showDetail = false := by
        by_contra hx
        have := update_showDetail_mono s.app m (showDetail_true_of_not_false hx)
        rw [h0] at this
        exact absurd this (by simp)
      exact (ih.2 hsd).2 v (List.mem_of_mem_erase h1)
    · have := update_cmds_fetchGeo s.app m v h2
      rw [h0] at this
      exact absurd this (by simp)

/-- C1: Classify applies the documented precedence (unspecified,
loopback, link-local, multicast, private) but the fall-through
branch of the source returns TypeInvalid, so a plain public address
such as 8.8.8.8 classifies as TypeInvalid instead of the TypePublic
the claim states.  This theorem evaluates the code at the failing
input (and at canonical inputs of the other categories, which all
agree with the claim). -/
theorem claim_c1_classify :
    Classify (("0.0.0.0").data) = IPType.TypeUnspecified ∧
    Classify (("127.0.0.1").data) = IPType.TypeLoopback ∧
    Classify (("::1").data) = IPType.TypeLoopback ∧
    Classify (("169.254.1.1").data) = IPType.TypeLinkLocal ∧
    Classify (("239.1.2.3").data) = IPType.TypeMulticast ∧
    Classify (("10.1.2.3").data) = IPType.TypePrivate ∧
    Classify (("not-an-ip").data) = IPType.TypeInvalid ∧
    Classify (("8.8.8.8").data) = IPType.TypeInvalid ∧
    Classify (("8.8.8.8").data) ≠ IPType.TypePublic := by decide

/-- C2: in every reachable orchestrator state the loading flag equals
NOT (bothSlotsSettled AND (detailNotRequested OR detailSettled)),
where a slot is settled when it is not pending and the detail is
settled when a geo record (success or failure) is present; and for
a target that is not an IP literal the flag is true immediately
after initialization. -/
theorem claim_c2_loading :
    (∀ s : Sys, Reach s →
      s.app.loading =
        !(slotSettled s.app.ipv4 && slotSettled s.app.ipv6 &&
          (!s.app.showDetail || s.app.geoInfo.isSome))) ∧
    (∀ (t : List Char) (d : Bool), parseIP t = none →
      (App.Init (NewApp t d)).1.loading = true) := by
  constructor
  · intro s h
    have := (sysInv_of_reach s h).1
    simpa [loadingFormula] using this
  · intro t d h
    simp [App.Init, NewApp, h]

theorem claim_c2_loading_witness :
    ((Sys.mk (App.Init (NewApp (("example.com").data) true)).1
          (App.Init (NewApp (("example.com").data) true)).2).app.loading =
      !(slotSettled (Sys.mk (App.Init (NewApp (("example.com").data) true)).1
            (App.Init (NewApp (("example.com").data) true)).2).app.ipv4 &&
        slotSettled (Sys.mk (App.Init (NewApp (("example.com").data) true)).1
            (App.Init (NewApp (("example.com").data) true)).2).app.ipv6 &&
        (!(Sys.mk (App.Init (NewApp (("example.com").data) true)).1
              (App.Init (NewApp (("example.com").data) true)).2).app.showDetail ||
          (Sys.mk (App.Init (NewApp (("example.com").data) true)).1
              (App.Init (NewApp (("example.com").data) true)).2).app.geoInfo.isSome))) ∧
    parseIP (("example.com").data) = none ∧
    (App.Init (NewApp (("example.com").data) true)).1.loading = true :=
  ⟨claim_c2_loading.1
      (Sys.mk (App.Init (NewApp (("example.com").data) true)).1
        (App.Init (NewApp (("example.com").data) true)).2)
      (Reach.init (("example.com").data) true),
    by decide,
    claim_c2_loading.2 (("example.com").data) true (by decide)⟩

/-- C10: the family predicates partition valid addresses: IsValid
holds exactly when one of IsIPv4 and IsIPv6 holds, and the two are
never both true. -/
theorem claim_c10_partition (s : List Char) :
    (IsValid s = xor (IsIPv4 s) (IsIPv6 s)) ∧
    ¬(IsIPv4 s = true ∧ IsIPv6 s = true) := by
  unfold IsValid IsIPv4 IsIPv6
  cases h : parseIP (trimSpace s) with
  | none => simp
  | some ip => cases h4 : to4 ip <;> simp [h4]

/-- C5: for an IP literal target, immediately after initialization the
matching slot holds the literal, the other slot is the Not
Applicable placeholder, no address lookup command is issued for
either family, and the geolocation fetch on the literal starts
immediately exactly when detail mode is requested. -/
theorem claim_c5_literal_init (t : List Char) (d : Bool) (ip : List Nat)
    (h : parseIP t = some ip) :
    (if (to4 ip).isSome then
        (App.Init (NewApp t d)).1.ipv4 = t ∧
          (App.Init (NewApp t d)).1.ipv6 = notApplicable
      else
        (App.Init (NewApp t d)).1.ipv6 = t ∧
          (App.Init (NewApp t d)).1.ipv4 = notApplicable) ∧
    (∀ s, Cmd.resolveIPv4 s ∉ (App.Init (NewApp t d)).2) ∧
    (∀ s, Cmd.resolveIPv6 s ∉ (App.Init (NewApp t d)).2) ∧
    (d = true → Cmd.fetchGeo t ∈ (App.Init (NewApp t d)).2) ∧
    (d = false → ∀ s, Cmd.fetchGeo s ∉ (App.Init (NewApp t d)).2) := by
  cases d <;>
    by_cases h4 : (to4 ip).isSome <;>
      simp [App.Init, NewApp, h, h4, updateLoading_ipv4, updateLoading_ipv6]

theorem claim_c5_witness :
    parseIP (("8.8.8.8").data) =
      some [0, 0, 0, 0, 0, 0, 0, 0, 0, 0, 0xff, 0xff, 8, 8, 8, 8] ∧
    ((if (to4 [0, 0, 0, 0, 0, 0, 0, 0, 0, 0, 0xff, 0xff, 8, 8, 8, 8]).isSome then
        (App.Init (NewApp (("8.8.8.8").data) true)).1.ipv4 = ("8.8.8.8").data ∧
          (App.Init (NewApp (("8.8.8.8").data) true)).1.ipv6 = notApplicable
      else
        (App.Init (NewApp (("8.8.8.8").data) true)).1.ipv6 = ("8.8.8.8").data ∧
          (App.Init (NewApp (("8.8.8.8").data) true)).1.ipv4 = notApplicable) ∧
    (∀ s, Cmd.resolveIPv4 s ∉ (App.Init (NewApp (("8.8.8.8").data) true)).2) ∧
    (∀ s, Cmd.resolveIPv6 s ∉ (App.Init (NewApp (("8.8.8.8").data) true)).2) ∧
    (true = true → Cmd.fetchGeo (("8.8.8.8").data) ∈
      (App.Init (NewApp (("8.8.8.8").data) true)).2) ∧
    (true = false → ∀ s, Cmd.fetchGeo s ∉ (App.Init (NewApp (("8.8.8.8").data) true)).2)) :=
  ⟨by decide,
    claim_c5_literal_init (("8.8.8.8").data) true
      [0, 0, 0, 0, 0, 0, 0, 0, 0, 0, 0xff, 0xff, 8, 8, 8, 8] (by decide)⟩

/-- C3 (amended): after a RefreshRequested event on a target that is
not an IP literal both slots read pending, loading is true and the
refresh message is set; however a late completion event from the
previous cycle is applied to the current state exactly like a
current one (the orchestrator keeps no generation counter), not
discarded. -/
theorem claim_c3_amended (a : App) (h : parseIP a.target = none) :
    ((App.Update a Msg.keyR).1.ipv4 = [] ∧
      (App.Update a Msg.keyR).1.ipv6 = [] ∧
      (App.Update a Msg.keyR).1.loading = true ∧
      (App.Update a Msg.keyR).1.message = refreshingStr) ∧
    (∀ v, (App.Update (App.Update a Msg.keyR).1 (Msg.ipv4Msg v)).1.ipv4 = v) ∧
    (∀ v, (App.Update (App.Update a Msg.keyR).1 (Msg.ipv6Msg v)).1.ipv6 = v) := by
  refine ⟨by simp [App.Update, App.refresh, h], fun v => ?_, fun v => ?_⟩ <;>
    (simp only [App.Update]
     split <;> simp [updateLoading_ipv4, updateLoading_ipv6])

theorem claim_c3_cex :
    (App.Update
        (App.Update (App.Init (NewApp (("example.com").data) false)).1 Msg.keyR).1
        (Msg.ipv4Msg (("203.0.113.9").data))).1.ipv4 = ("203.0.113.9").data ∧
    (App.Update
        (App.Update (App.Init (NewApp (("example.com").data) false)).1 Msg.keyR).1
        (Msg.ipv4Msg (("203.0.113.9").data))).1 ≠
      (App.Update (App.Init (NewApp (("example.com").data) false)).1 Msg.keyR).1 := by
  decide

theorem claim_c3_witness :
    parseIP (("example.com").data) = none ∧
    (((App.Update (App.Init (NewApp (("example.com").data) true)).1 Msg.keyR).1.ipv4 = [] ∧
      (App.Update (App.Init (NewApp (("example.com").data) true)).1 Msg.keyR).1.ipv6 = [] ∧
      (App.Update (App.Init (NewApp (("example.com").data) true)).1
          Msg.keyR).1.loading = true ∧
      (App.Update (App.Init (NewApp (("example.com").data) true)).1
          Msg.keyR).1.message = refreshingStr) ∧
    (∀ v, (App.Update (App.Update (App.Init (NewApp (("example.com").data) true)).1
        Msg.keyR).1 (Msg.ipv4Msg v)).1.ipv4 = v) ∧
    (∀ v, (App.Update (App.Update (App.Init (NewApp (("example.com").data) true)).1
        Msg.keyR).1 (Msg.ipv6Msg v)).1.ipv6 = v)) :=
  ⟨by decide,
    claim_c3_amended (App.Init (NewApp (("example.com").data) true)).1 (by decide)⟩

/-- C4: for a hostname target with detail mode requested, under either
order of the two completion events exactly one geolocation fetch is
issued when at least one delivered value is usable (not the Not
Detected failure sentinel), none otherwise, and the fetch uses the
value of the first usable completion; in particular a subsequent
completion of the other family issues no second fetch. -/
theorem claim_c4_single_fetch (t v4 v6 : List Char) (h : parseIP t = none) :
    (fetchTargets
        ((App.Update (App.Init (NewApp t true)).1 (Msg.ipv4Msg v4)).2 ++
          (App.Update (App.Update (App.Init (NewApp t true)).1 (Msg.ipv4Msg v4)).1
            (Msg.ipv6Msg v6)).2) =
      if v4 ≠ notDetected then [v4] else if v6 ≠ notDetected then [v6] else []) ∧
    (fetchTargets
        ((App.Update (App.Init (NewApp t true)).1 (Msg.ipv6Msg v6)).2 ++
          (App.Update (App.Update (App.Init (NewApp t true)).1 (Msg.ipv6Msg v6)).1
            (Msg.ipv4Msg v4)).2) =
      if v6 ≠ notDetected then [v6] else if v4 ≠ notDetected then [v4] else []) := by
  by_cases h4 : v4 = notDetected <;> by_cases h6 : v6 = notDetected <;>
    simp [App.Init, App.Update, App.updateLoading, NewApp, fetchTargets, h, h4, h6]

theorem claim_c4_witness :
    parseIP (("example.com").data) = none ∧
    ((fetchTargets
        ((App.Update (App.Init (NewApp (("example.com").data) true)).1
            (Msg.ipv4Msg (("1.2.3.4").data))).2 ++
          (App.Update (App.Update (App.Init (NewApp (("example.com").data) true)).1
              (Msg.ipv4Msg (("1.2.3.4").data))).1
            (Msg.ipv6Msg (("2001:db8::1").data))).2) =
      if ("1.2.3.4").data ≠ notDetected then [("1.2.3.4").data]
      else if ("2001:db8::1").data ≠ notDetected then [("2001:db8::1").data] else []) ∧
    (fetchTargets
        ((App.Update (App.Init (NewApp (("example.com").data) true)).1
            (Msg.ipv6Msg (("2001:db8::1").data))).2 ++
          (App.Update (App.Update (App.Init (NewApp (("example.com").data) true)).1
              (Msg.ipv6Msg (("2001:db8::1").data))).1
            (Msg.ipv4Msg (("1.2.3.4").data))).2) =
      if ("2001:db8::1").data ≠ notDetected then [("2001:db8::1").data]
      else if ("1.2.3.4").data ≠ notDetected then [("1.2.3.4").data] else [])) :=
  ⟨by decide,
    claim_c4_single_fetch (("example.com").data) (("1.2.3.4").data)
      (("2001:db8::1").data) (by decide)⟩

/-- C6 (amended): a DetailModeEnabled event while detail mode is off
starts the geolocation fetch immediately when a usable address
exists in either slot; otherwise it does not leave the geo detail
state untouched: it stores a Failed record with message No valid
IP, and a later slot completion then triggers no fetch (the
completion guard requires an absent geo record). -/
theorem claim_c6_amended (a : App) (h : a.showDetail = false) :
    (a.getValidIP ≠ [] →
      App.Update a Msg.keyD =
        ({ a with showDetail := true, loading := true },
          [Cmd.fetchGeo a.getValidIP])) ∧
    (a.getValidIP = [] →
      App.Update a Msg.keyD =
        ({ a with showDetail := true, geoInfo := some (geoFail (("No valid IP").data)) },
          []) ∧
      (∀ v, fetchTargets
          (App.Update
            { a with showDetail := true, geoInfo := some (geoFail (("No valid IP").data)) }
            (Msg.ipv4Msg v)).2 = []) ∧
      (∀ v, fetchTargets
          (App.Update
            { a with showDetail := true, geoInfo := some (geoFail (("No valid IP").data)) }
            (Msg.ipv6Msg v)).2 = [])) := by
  have hgv : App.getValidIP { a with showDetail := true } = a.getValidIP := by
    simp [App.getValidIP]
  constructor
  · intro hne
    simp [App.Update, h, hgv, hne]
  · intro heq
    refine ⟨by simp [App.Update, h, hgv, heq], fun v => ?_, fun v => ?_⟩ <;>
      simp [App.Update, App.updateLoading, fetchTargets]

theorem claim_c6_witness :
    (App.Init (NewApp (("8.8.8.8").data) false)).1.showDetail = false ∧
    (App.Init (NewApp (("8.8.8.8").data) false)).1.getValidIP ≠ [] ∧
    App.Update (App.Init (NewApp (("8.8.8.8").data) false)).1 Msg.keyD =
      ({ (App.Init (NewApp (("8.8.8.8").data) false)).1 with
          showDetail := true, loading := true },
        [Cmd.fetchGeo (App.Init (NewApp (("8.8.8.8").data) false)).1.getValidIP]) :=
  ⟨by decide, by decide,
    (claim_c6_amended (App.Init (NewApp (("8.8.8.8").data) false)).1 (by decide)).1
      (by decide)⟩

theorem claim_c6_cex :
    (App.Update (App.Init (NewApp (("example.com").data) false)).1 Msg.keyD).1.geoInfo ≠
      none ∧
    fetchTargets
        (App.Update
            (App.Update (App.Init (NewApp (("example.com").data) false)).1 Msg.keyD).1
            (Msg.ipv4Msg (("1.2.3.4").data))).2 =
      [] := by decide

/-- C7: a copy request for a slot that is pending or unavailable is a
no-op (no ephemeral message, state and command list unchanged); on
a resolved slot it writes the clipboard, sets the confirmation
message and schedules the clear timer, and the expiry event then
clears the message. -/
theorem claim_c7_copy (a : App) :
    ((slotView a.ipv4 = SlotView.pending ∨
        slotView a.ipv4 = SlotView.unavailableNotDetected ∨
        slotView a.ipv4 = SlotView.unavailableNotApplicable) →
      App.Update a Msg.key4 = (a, [])) ∧
    (∀ v, slotView a.ipv4 = SlotView.resolved v →
      (App.Update a Msg.key4).1 = { a with message := copiedIPv4 } ∧
      (App.Update a Msg.key4).2 = [Cmd.clipboardWrite a.ipv4, Cmd.tickClear] ∧
      (App.Update (App.Update a Msg.key4).1 Msg.clearMsg).1 =
        { a with message := [] }) ∧
    ((slotView a.ipv6 = SlotView.pending ∨
        slotView a.ipv6 = SlotView.unavailableNotDetected ∨
        slotView a.ipv6 = SlotView.unavailableNotApplicable) →
      App.Update a Msg.key6 = (a, [])) ∧
    (∀ v, slotView a.ipv6 = SlotView.resolved v →
      (App.Update a Msg.key6).1 = { a with message := copiedIPv6 } ∧
      (App.Update a Msg.key6).2 = [Cmd.clipboardWrite a.ipv6, Cmd.tickClear] ∧
      (App.Update (App.Update a Msg.key6).1 Msg.clearMsg).1 =
        { a with message := [] }) := by
  unfold slotView
  refine ⟨fun h4 => ?_, fun v h4 => ?_, fun h6 => ?_, fun v h6 => ?_⟩ <;>
    (first
      | (rcases h4 with h | h | h
         all_goals (split_ifs at h
                    all_goals simp_all [App.Update]))
      | (rcases h6 with h | h | h
         all_goals (split_ifs at h
                    all_goals simp_all [App.Update]))
      | (split_ifs at h4
         all_goals simp_all [App.Update])
      | (split_ifs at h6
         all_goals simp_all [App.Update]))

theorem claim_c7_witness :
    App.Update (NewApp (("example.com").data) false) Msg.key4 =
      (NewApp (("example.com").data) false, []) ∧
    App.Update { NewApp (("example.com").data) false with ipv6 := notDetected }
        Msg.key6 =
      ({ NewApp (("example.com").data) false with ipv6 := notDetected }, []) ∧
    (App.Update { NewApp (("example.com").data) false with ipv4 := ("9.9.9.9").data }
        Msg.key4).1 =
      { { NewApp (("example.com").data) false with ipv4 := ("9.9.9.9").data } with
          message := copiedIPv4 } ∧
    (App.Update
        (App.Update
          { NewApp (("example.com").data) false with ipv4 := ("9.9.9.9").data }
          Msg.key4).1 Msg.clearMsg).1 =
      { { NewApp (("example.com").data) false with ipv4 := ("9.9.9.9").data } with
          message := [] } :=
  ⟨(claim_c7_copy (NewApp (("example.com").data) false)).1 (Or.inl (by decide)),
    (claim_c7_copy { NewApp (("example.com").data) false with
        ipv6 := notDetected }).2.2.1 (Or.inr (Or.inl (by decide))),
    ((claim_c7_copy { NewApp (("example.com").data) false with
        ipv4 := ("9.9.9.9").data }).2.1 (("9.9.9.9").data) (by decide)).1,
    ((claim_c7_copy { NewApp (("example.com").data) false with
        ipv4 := ("9.9.9.9").data }).2.1 (("9.9.9.9").data) (by decide)).2.2⟩

/-- C8 counterexample: a.b:80 satisfies every condition of the claim
(in particular its colon is in the claimed character set), yet the
code rejects it, because isValidDomainChar has no colon. -/
theorem claim_c8_cex :
    IsValidTarget (("a.b:80").data) = false ∧
    isAcceptableTargetSpec (("a.b:80").data) = true := by decide

theorem space_not_validChar {c : Char} (h : goIsSpace c = true) :
    isValidDomainChar c = false := by
  unfold goIsSpace at h
  simp only [Bool.or_eq_true, beq_iff_eq] at h
  rcases h with ((((((h | h) | h) | h) | h) | h) | h) | h <;> subst h <;> decide

/-- C8 (amended): IsValidTarget equals the acceptability predicate of
the claim with the colon removed from the character set (so the
character set is exactly isValidDomainChar). -/
theorem claim_c8_amended (t : List Char) :
    IsValidTarget t =
      ((parseIP (trimSpace t)).isSome ||
        (decide ((trimSpace t).length ≤ 253) && !((trimSpace t).any goIsSpace) &&
          ((trimSpace t).contains ('.') || trimSpace t == localhostStr) &&
          (trimSpace t).all isValidDomainChar)) := by
  unfold IsValidTarget
  dsimp only
  split_ifs with h1 h2 h3 h4
  · simp [h1]
  · have h2n : ¬((trimSpace t).length ≤ 253) := by omega
    simp [h1, h2n]
  · have hany : (trimSpace t).any goIsSpace = true :=
      List.any_eq_true.mpr ⟨' ', h3, by decide⟩
    simp [h1, hany]
  · simp [h1, h4.1, h4.2]
  · have h2n : (trimSpace t).length ≤ 253 := by omega
    have hdot : ('.') ∈ trimSpace t ∨ trimSpace t = localhostStr := by
      rcases not_and_or.mp h4 with h | h
      · exact Or.inl (not_not.mp h)
      · exact Or.inr (not_not.mp h)
    by_cases hall : (trimSpace t).all isValidDomainChar = true
    · have hnospace : (trimSpace t).any goIsSpace = false := by
        rw [List.any_eq_false]
        intro c hc
        have hv := List.all_eq_true.mp hall c hc
        intro hsp
        rw [space_not_validChar hsp] at hv
        exact absurd hv (by decide)
      simp [h1, hdot, hall, hnospace, h2n]
    · have hall2 : (trimSpace t).all isValidDomainChar = false :=
        Bool.eq_false_iff.mpr hall
      simp [h1, hall2]

/-- C9 counterexample: ExtractFromURL is not idempotent.  On the input
of two bracket pairs, one application strips one pair and a second
application strips the next, so the results differ. -/
theorem claim_c9_cex :
    ExtractFromURL (ExtractFromURL (("[[a]]").data)) ≠
      ExtractFromURL (("[[a]]").data) := by decide

theorem dropWhile_eq_self_of_no (p : Char → Bool) (l : List Char)
    (h : ∀ c ∈ l, p c = false) : l.dropWhile p = l := by
  induction l with
  | nil => rfl
  | cons x t ih =>
    rw [List.dropWhile, h x (List.mem_cons_self x t)]

theorem trimSpace_eq_self {l : List Char} (h : ∀ c ∈ l, goIsSpace c = false) :
    trimSpace l = l := by
  unfold trimSpace
  rw [dropWhile_eq_self_of_no goIsSpace l h,
    dropWhile_eq_self_of_no goIsSpace l.reverse
      (fun c hc => h c (List.mem_reverse.mp hc)),
    List.reverse_reverse]

theorem trimQuotes_eq_self {l : List Char} (h : ∀ c ∈ l, isQuoteChar c = false) :
    trimQuotes l = l := by
  unfold trimQuotes
  rw [dropWhile_eq_self_of_no isQuoteChar l h,
    dropWhile_eq_self_of_no isQuoteChar l.reverse
      (fun c hc => h c (List.mem_reverse.mp hc)),
    List.reverse_reverse]

theorem afterSchemeSep_subset {l r : List Char} (h : afterSchemeSep l = some r) :
    ∀ c ∈ r, c ∈ l := by
  induction l with
  | nil => simp [afterSchemeSep] at h
  | cons x t ih =>
    rw [afterSchemeSep] at h
    split at h
    · cases h
      exact fun c hc => List.mem_cons_of_mem x (List.drop_subset 2 t hc)
    · exact fun c hc => List.mem_cons_of_mem x (ih h c hc)

theorem startsWithSep_mem_colon {l : List Char} (h : startsWithSep l = true) :
    (':') ∈ l := by
  cases l with
  | nil => simp [startsWithSep] at h
  | cons a t1 =>
    cases t1 with
    | nil => simp [startsWithSep] at h
    | cons b t2 =>
      cases t2 with
      | nil => simp [startsWithSep] at h
      | cons c t3 =>
        simp only [startsWithSep, Bool.and_eq_true, beq_iff_eq] at h
        rw [h.1.1]
        exact List.mem_cons_self _ _

theorem startsWithSep_mem_slash {l : List Char} (h : startsWithSep l = true) :
    ('/') ∈ l := by
  cases l with
  | nil => simp [startsWithSep] at h
  | cons a t1 =>
    cases t1 with
    | nil => simp [startsWithSep] at h
    | cons b t2 =>
      cases t2 with
      | nil => simp [startsWithSep] at h
      | cons c t3 =>
        simp only [startsWithSep, Bool.and_eq_true, beq_iff_eq] at h
        rw [h.1.2]
        exact List.mem_cons_of_mem a (List.mem_cons_self _ _)

theorem afterSchemeSep_none_of_no_colon {l : List Char} (h : (':') ∉ l) :
    afterSchemeSep l = none := by
  induction l with
  | nil => rfl
  | cons x t ih =>
    rw [afterSchemeSep]
    have hsw : startsWithSep (x :: t) = false := by
      cases hb : startsWithSep (x :: t)
      · rfl
      · exact absurd (startsWithSep_mem_colon hb) h
    rw [hsw]
    simp only [Bool.false_eq_true, if_false]
    exact ih (fun hm => h (List.mem_cons_of_mem x hm))

theorem afterSchemeSep_none_of_no_slash {l : List Char} (h : ('/') ∉ l) :
    afterSchemeSep l = none := by
  induction l with
  | nil => rfl
  | cons x t ih =>
    rw [afterSchemeSep]
    have hsw : startsWithSep (x :: t) = false := by
      cases hb : startsWithSep (x :: t)
      · rfl
      · exact absurd (startsWithSep_mem_slash hb) h
    rw [hsw]
    simp only [Bool.false_eq_true, if_false]
    exact ih (fun hm => h (List.mem_cons_of_mem x hm))

theorem idxOfChar_eq_none_of_not_mem {l : List Char} {c : Char} (h : c ∉ l) :
    idxOfChar l c = none := by
  induction l with
  | nil => rfl
  | cons x t ih =>
    rw [idxOfChar]
    have hx : ¬x = c := fun he => h (he ▸ List.mem_cons_self x t)
    rw [if_neg hx, ih (fun hm => h (List.mem_cons_of_mem x hm))]
    rfl

theorem idxOfChar_take_not_mem {l : List Char} {c : Char} {i : Nat}
    (h : idxOfChar l c = some i) : c ∉ l.take i := by
  induction l generalizing i with
  | nil => simp
  | cons x t ih =>
    rw [idxOfChar] at h
    split at h
    · cases h
      simp
    · match hj : idxOfChar t c with
      | none => rw [hj] at h; cases h
      | some j =>
        rw [hj] at h
        cases h
        rename_i hx
        intro hm
        rw [List.take_succ_cons] at hm
        rcases List.mem_cons.mp hm with he | hm2
        · exact hx he.symm
        · exact ih hj hm2

theorem lastIdxOfChar_eq_none_of_not_mem {l : List Char} {c : Char} (h : c ∉ l) :
    lastIdxOfChar l c = none := by
  unfold lastIdxOfChar
  rw [idxOfChar_eq_none_of_not_mem (fun hm => h (List.mem_reverse.mp hm))]

theorem splitHostPort_none_of_no_colon {l : List Char} (h : (':') ∉ l) :
    splitHostPort l = none := by
  unfold splitHostPort
  rw [lastIdxOfChar_eq_none_of_not_mem h]

theorem splitHostPort_host {l host port : List Char} (hb : ('[') ∉ l)
    (hs : splitHostPort l = some (host, port)) :
    (∀ x ∈ host, x ∈ l) ∧ (':') ∉ host := by
  unfold splitHostPort at hs
  cases hlast : lastIdxOfChar l (':') with
  | none => rw [hlast] at hs; cases hs
  | some i =>
    rw [hlast] at hs
    dsimp only at hs
    have hhead : ¬(l.getD 0 (Char.ofNat 0) = '[') := by
      intro hh
      cases l with
      | nil => simp [lastIdxOfChar, idxOfChar] at hlast
      | cons x t =>
        simp only [List.getD_cons_zero] at hh
        exact hb (hh ▸ List.mem_cons_self x t)
    rw [if_neg hhead] at hs
    split_ifs at hs with hc hlb
    cases hs
    exact ⟨fun x hx => List.take_subset i l hx, hc⟩

theorem trimPre_eq_self {l : List Char} {c : Char} (h : c ∉ l) : trimPre l c = l := by
  cases l with
  | nil => rfl
  | cons x t =>
    unfold trimPre
    dsimp only
    rw [if_neg (fun he : x = c => h (he ▸ List.mem_cons_self x t))]

theorem trimSuf_eq_self {l : List Char} {c : Char} (h : c ∉ l) : trimSuf l c = l := by
  unfold trimSuf
  rw [if_neg]
  intro hg
  rcases List.mem_getLast?_eq_getLast (by simp [hg] : c ∈ l.getLast?) with ⟨hne, he⟩
  exact h (he ▸ List.getLast_mem hne)

/-- A string with no slash, no quote or white space at its ends, no
brackets, and either no colon or a failing SplitHostPort, is a
fixed point of ExtractFromURL. -/
theorem extractFromURL_fixed (y : List Char)
    (hsp : ∀ c ∈ y, goIsSpace c = false)
    (hq : ∀ c ∈ y, isQuoteChar c = false)
    (hlb : ('[') ∉ y) (hrb : (']') ∉ y) (hns : ('/') ∉ y)
    (hsplit : splitHostPort y = none) :
    ExtractFromURL y = y := by
  unfold ExtractFromURL
  rw [trimSpace_eq_self hsp]
  dsimp only
  rw [trimQuotes_eq_self hq, afterSchemeSep_none_of_no_slash hns]
  dsimp only
  rw [idxOfChar_eq_none_of_not_mem hns]
  dsimp only
  rw [hsplit]
  rw [trimPre_eq_self hlb, trimSuf_eq_self hrb]

theorem not_mem_of_idxOfChar_eq_none {l : List Char} {c : Char}
    (h : idxOfChar l c = none) : c ∉ l := by
  induction l with
  | nil => simp
  | cons x t ih =>
    rw [idxOfChar] at h
    split at h
    · cases h
    · rename_i hx
      intro hm
      rcases List.mem_cons.mp hm with he | hm2
      · exact hx he.symm
      · cases hj : idxOfChar t c with
        | none => exact ih hj hm2
        | some j =>
          rw [hj] at h
          cases h

theorem extract_eq (l : List Char) (hsp : trimSpace l = l) (hq : trimQuotes l = l) :
    ExtractFromURL l =
      (match splitHostPort
          (match idxOfChar (match afterSchemeSep l with
                            | some r => r
                            | none => l) '/' with
           | some idx => (match afterSchemeSep l with
                          | some r => r
                          | none => l).take idx
           | none => (match afterSchemeSep l with
                      | some r => r
                      | none => l)) with
       | some hostPort => hostPort.1
       | none =>
         trimSuf
           (trimPre
             (match idxOfChar (match afterSchemeSep l with
                               | some r => r
                               | none => l) '/' with
              | some idx => (match afterSchemeSep l with
                             | some r => r
                             | none => l).take idx
              | none => (match afterSchemeSep l with
                         | some r => r
                         | none => l)) '[') ']') := by
  unfold ExtractFromURL
  rw [hsp]
  dsimp only
  rw [hq]

theorem extract_tail_fixed (l i4 : List Char)
    (h : ∀ c ∈ l, goIsSpace c = false ∧ isQuoteChar c = false ∧ c ≠ '[' ∧ c ≠ ']')
    (hsub : ∀ c ∈ i4, c ∈ l)
    (hns4 : ('/') ∉ i4) :
    ExtractFromURL (match splitHostPort i4 with
        | some hostPort => hostPort.1
        | none => trimSuf (trimPre i4 '[') ']') =
      (match splitHostPort i4 with
        | some hostPort => hostPort.1
        | none => trimSuf (trimPre i4 '[') ']') := by
  have hlb4 : ('[') ∉ i4 := fun hm => (h _ (hsub _ hm)).2.2.1 rfl
  have hrb4 : (']') ∉ i4 := fun hm => (h _ (hsub _ hm)).2.2.2 rfl
  cases hC : splitHostPort i4 with
  | some hp =>
    obtain ⟨host, port⟩ := hp
    obtain ⟨hhsub, hhc⟩ := splitHostPort_host hlb4 hC
    have hsubl : ∀ c ∈ host, c ∈ l := fun c hc => hsub c (hhsub c hc)
    exact extractFromURL_fixed host
      (fun c hc => (h c (hsubl c hc)).1)
      (fun c hc => (h c (hsubl c hc)).2.1)
      (fun hm => (h _ (hsubl _ hm)).2.2.1 rfl)
      (fun hm => (h _ (hsubl _ hm)).2.2.2 rfl)
      (fun hm => hns4 (hhsub _ hm))
      (splitHostPort_none_of_no_colon hhc)
  | none =>
    rw [trimPre_eq_self hlb4, trimSuf_eq_self hrb4]
    exact extractFromURL_fixed i4
      (fun c hc => (h c (hsub c hc)).1)
      (fun c hc => (h c (hsub c hc)).2.1)
      hlb4 hrb4 hns4 hC

/-- C9 (amended): ExtractFromURL is idempotent on every input that
contains no square bracket, quote or white space characters (on
inputs with such characters a second application can strip
further, as the counterexample shows). -/
theorem claim_c9_amended (l : List Char)
    (h : ∀ c ∈ l, goIsSpace c = false ∧ isQuoteChar c = false ∧ c ≠ '[' ∧ c ≠ ']') :
    ExtractFromURL (ExtractFromURL l) = ExtractFromURL l := by
  have hsp : ∀ c ∈ l, goIsSpace c = false := fun c hc => (h c hc).1
  have hq : ∀ c ∈ l, isQuoteChar c = false := fun c hc => (h c hc).2.1
  rw [extract_eq l (trimSpace_eq_self hsp) (trimQuotes_eq_self hq)]
  cases hA : afterSchemeSep l with
  | some r =>
    have hsub3 : ∀ c ∈ r, c ∈ l := afterSchemeSep_subset hA
    cases hB : idxOfChar r ('/') with
    | some idx =>
      exact extract_tail_fixed l (r.take idx) h
        (fun c hc => hsub3 c (List.take_subset idx r hc))
        (idxOfChar_take_not_mem hB)
    | none =>
      exact extract_tail_fixed l r h hsub3 (not_mem_of_idxOfChar_eq_none hB)
  | none =>
    cases hB : idxOfChar l ('/') with
    | some idx =>
      exact extract_tail_fixed l (l.take idx) h
        (fun c hc => List.take_subset idx l hc)
        (idxOfChar_take_not_mem hB)
    | none =>
      exact extract_tail_fixed l l h (fun c hc => hc) (not_mem_of_idxOfChar_eq_none hB)

theorem claim_c9_witness :
    (∀ c ∈ ("http://example.com:8080/path").data,
      goIsSpace c = false ∧ isQuoteChar c = false ∧ c ≠ '[' ∧ c ≠ ']') ∧
    ExtractFromURL (ExtractFromURL (("http://example.com:8080/path").data)) =
      ExtractFromURL (("http://example.com:8080/path").data) :=
  ⟨by decide, claim_c9_amended (("http://example.com:8080/path").data) (by decide)⟩
